import Mathlib

/-!
# The hooks configuration template `verify-loop/templates/hooks.config.go`

The repository's source is one shell-style configuration file.  Its text is
embedded line by line, and the reading of its lines (blank, comment,
assignment split on the first `=`, quotes trimmed) is defined on lists of
characters by structural recursion, so every statement below evaluates.
-/

namespace HooksConfig

/-! ## The source text -/

/-- The 42 lines of `src/verify-loop/templates/hooks.config.go`, in file order. -/
def referenceLines : List String :=
  [ "# Claude Code Hooks Configuration",
    "# Language: Go",
    "LANGUAGE=\"go\"",
    "",
    "# Format: gofmt (built-in, always available)",
    "FORMAT_CMD=\"gofmt -l -w .\"",
    "",
    "# Imports: goimports (organizes imports)",
    "# Install: go install golang.org/x/tools/cmd/goimports@latest",
    "IMPORTS_CMD=\"goimports -w .\"",
    "",
    "# Build: compile all packages",
    "BUILD_CMD=\"go build ./...\"",
    "",
    "# Vet: static analysis (built-in)",
    "VET_CMD=\"go vet ./...\"",
    "",
    "# Lint: golangci-lint (meta-linter with 50+ checks)",
    "# Install: https://golangci-lint.run/docs/install/",
    "# If you have a Makefile with 'lint' target, use: LINT_CMD=\"make lint\"",
    "LINT_CMD=\"golangci-lint run\"",
    "",
    "# Type check: not needed for Go (compile-time checked)",
    "TYPE_CMD=\"\"",
    "",
    "# Tests: with race detector",
    "# If you have a Makefile with 'test' target, use: TEST_CMD=\"make test\"",
    "TEST_CMD=\"go test -race ./...\"",
    "",
    "# Scoring weights (total: 110)",
    "FORMAT_WEIGHT=10",
    "BUILD_WEIGHT=40",
    "VET_WEIGHT=10",
    "LINT_WEIGHT=20",
    "TYPE_WEIGHT=0",
    "TEST_WEIGHT=20",
    "",
    "# Threshold to pass quality gate (percentage)",
    "THRESHOLD=80",
    "",
    "# Custom protected files (add project-specific patterns)",
    "# CUSTOM_PROTECTED_FILES=(\"go.sum\")" ]

/-- The text of the file: its lines joined by newlines (the file has no final newline). -/
def referenceText : String := "\n".intercalate referenceLines

/-! ## Reading lines -/

/-- Cut a text into lines at every newline character. -/
def splitLines : List Char → List (List Char)
  | [] => [[]]
  | c :: cs =>
    if c = '\n' then [] :: splitLines cs
    else
      match splitLines cs with
      | [] => [[c]]
      | l :: ls => (c :: l) :: ls

/-- A blank line holds nothing but white space. -/
def isBlank (l : List Char) : Bool := l.all Char.isWhitespace

/-- A full-line comment: the first character of the line is `#`. -/
def isComment (l : List Char) : Bool :=
  match l with
  | c :: _ => c == '#'
  | [] => false

/-- Split at the first `=`: what precedes it and what follows it. -/
def splitFirstEq : List Char → Option (List Char × List Char)
  | [] => none
  | c :: cs =>
    if c = '=' then some ([], cs)
    else
      match splitFirstEq cs with
      | some (k, v) => some (c :: k, v)
      | none => none

/-- Trim the surrounding double quotes of a value, when it has both. -/
def trimQuotes (v : List Char) : List Char :=
  match v with
  | '"' :: rest => if rest.getLast? = some '"' then rest.dropLast else v
  | _ => v

/-- The assignment a line makes, if it is neither blank nor a comment and has an `=`. -/
def assignmentOf (l : List Char) : Option (String × String) :=
  if isBlank l || isComment l then none
  else
    match splitFirstEq l with
    | some (k, v) => some (String.mk k, String.mk (trimQuotes v))
    | none => none

/-- The lines of the file as character lists. -/
def fileLines : List (List Char) := splitLines referenceText.data

/-- The assignments of the file in line order. -/
def fileAssignments : List (String × String) := fileLines.filterMap assignmentOf

/-! ## The loader -/

deriving instance DecidableEq for Except

/-- Modelled from the spec: the loader's errors (section 4.1, section 7); the loader is not
among the sources.  `ParseError` names the offending line number. -/
inductive LoadError where
  | NotFound
  | ParseError (line : Nat)
  deriving DecidableEq, Repr

/-- Modelled from the spec: the loader's result, a mapping from key name to raw string
value, kept as an association list in order of first assignment. -/
abbrev Mapping := List (String × String)

/-- Modelled from the spec: the raw value the mapping holds for a key, if any. -/
def getValue : Mapping → String → Option String
  | [], _ => none
  | (k', v) :: rest, k => if k' = k then some v else getValue rest k

/-- Modelled from the spec: assignment under "last assignment wins": a later value
replaces the earlier one of the same key. -/
def setValue : Mapping → String → String → Mapping
  | [], k, v => [(k, v)]
  | (k', v') :: rest, k, v =>
    if k' = k then (k, v) :: rest else (k', v') :: setValue rest k v

/-- The alternative rule "first assignment wins": a key already present keeps its value. -/
def setIfAbsent : Mapping → String → String → Mapping
  | [], k, v => [(k, v)]
  | (k', v') :: rest, k, v =>
    if k' = k then (k', v') :: rest else (k', v') :: setIfAbsent rest k v

/-- Modelled from the spec: the parsing rule of section 4.1 over numbered lines: blank lines
and full-line comments are dropped, an assignment line is split on its first `=` and the
value loses its surrounding quotes, any other line is a `ParseError` at its number.  The
rule for a repeated key is the parameter `put`. -/
def parseLines (put : Mapping → String → String → Mapping) :
    Nat → List (List Char) → Mapping → Except LoadError Mapping
  | _, [], m => Except.ok m
  | n, l :: ls, m =>
    if isBlank l || isComment l then parseLines put (n + 1) ls m
    else
      match splitFirstEq l with
      | some (k, v) =>
        parseLines put (n + 1) ls (put m (String.mk k) (String.mk (trimQuotes v)))
      | none => Except.error (LoadError.ParseError n)

/-- Modelled from the spec: the mapping of a file's text, lines numbered from 1, last
assignment wins. -/
def parseText (text : String) : Except LoadError Mapping :=
  parseLines setValue 1 (splitLines text.data) []

/-- The same parse under "first assignment wins". -/
def parseTextFirstWins (text : String) : Except LoadError Mapping :=
  parseLines setIfAbsent 1 (splitLines text.data) []

/-- Modelled from the spec: the loader's contract: given a file path, the mapping of the
file's text, or `NotFound` when no file is there.  The file system is the function
`readFile`. -/
def load (readFile : String → Option String) (path : String) : Except LoadError Mapping :=
  match readFile path with
  | none => Except.error LoadError.NotFound
  | some text => parseText text

/-! ## The typed accessors -/

/-- Modelled from the spec: the accessor layer's error (section 4.2), naming the key. -/
inductive AccessError where
  | TypeError (key : String)
  deriving DecidableEq, Repr

/-- The number a list of decimal digits denotes, most significant digit first. -/
def digitsValue (cs : List Char) : Nat :=
  cs.foldl (fun acc c => 10 * acc + (c.toNat - '0'.toNat)) 0

/-- Modelled from the spec: coercion of a raw value to a non-negative integer: a non-empty
string of decimal digits, and nothing else, coerces. -/
def coerceNat (s : String) : Option Nat :=
  match s.data with
  | [] => none
  | cs => if cs.all Char.isDigit then some (digitsValue cs) else none

/-- Modelled from the spec: an integer field: the default when the key is absent, the
coerced value when it is present, `TypeError` naming the key when coercion fails. -/
def intField (m : Mapping) (key : String) (dflt : Nat) : Except AccessError Nat :=
  match getValue m key with
  | none => Except.ok dflt
  | some v =>
    match coerceNat v with
    | some n => Except.ok n
    | none => Except.error (AccessError.TypeError key)

/-- Modelled from the spec: the documented default of `THRESHOLD`. -/
def defaultThreshold : Nat := 80

/-- Modelled from the spec: the documented default of every weight. -/
def defaultWeight : Nat := 0

/-- Modelled from the spec: the weight of the check `X`, read from `X_WEIGHT`. -/
def weight (m : Mapping) (check : String) : Except AccessError Nat :=
  intField m (check ++ "_WEIGHT") defaultWeight

/-- Modelled from the spec: the threshold, an integer in [0,100]; a value out of range is
refused like a value that does not coerce. -/
def threshold (m : Mapping) : Except AccessError Nat :=
  match intField m "THRESHOLD" defaultThreshold with
  | Except.ok t =>
    if t ≤ 100 then Except.ok t else Except.error (AccessError.TypeError "THRESHOLD")
  | Except.error e => Except.error e

/-- Modelled from the spec: the command of the check `X`, read from `X_CMD`; the default
is the empty string, which means the check is skipped. -/
def cmd (m : Mapping) (check : String) : String :=
  (getValue m (check ++ "_CMD")).getD ""

/-- Modelled from the spec: the language tag; it has no default. -/
def language (m : Mapping) : Option String := getValue m "LANGUAGE"

/-- Modelled from the spec: the protected files; the default is the empty list.  The spec
gives no syntax for a present value, so its reading is the parameter `parseArray`. -/
def customProtectedFiles (parseArray : String → List String) (m : Mapping) : List String :=
  match getValue m "CUSTOM_PROTECTED_FILES" with
  | none => []
  | some v => parseArray v

/-! ## Line shapes and key families -/

/-- A character of an uppercase snake-case identifier. -/
def isUpperSnakeChar (c : Char) : Bool := c.isUpper || c.isDigit || c == '_'

/-- An uppercase snake-case identifier: it starts with an uppercase letter and holds only
uppercase letters, digits and underscores. -/
def isUpperSnake (k : List Char) : Bool :=
  match k with
  | [] => false
  | c :: _ => c.isUpper && k.all isUpperSnakeChar

/-- A double-quoted value, possibly empty: a quote, text without a quote, a quote. -/
def isDoubleQuoted (v : List Char) : Bool :=
  match v with
  | '"' :: rest => rest.getLast? == some '"' && rest.dropLast.all (fun c => c != '"')
  | _ => false

/-- The shape `KEY="value"`: an uppercase snake-case key, `=`, a double-quoted value. -/
def isQuotedAssignment (l : List Char) : Bool :=
  match splitFirstEq l with
  | some (k, v) => isUpperSnake k && isDoubleQuoted v
  | none => false

/-- The shape `KEY=digits`: an uppercase snake-case key, `=`, a non-empty run of decimal
digits without quotes. -/
def isDigitAssignment (l : List Char) : Bool :=
  match splitFirstEq l with
  | some (k, v) => isUpperSnake k && !v.isEmpty && v.all Char.isDigit
  | none => false

/-- The three shapes the input constraints name: blank, comment, `KEY="value"`. -/
def isThreeShapes (l : List Char) : Bool :=
  isBlank l || isComment l || isQuotedAssignment l

/-- How many of the four shapes (blank, comment, quoted assignment, digit assignment) a
line has. -/
def shapeCount (l : List Char) : Nat :=
  [isBlank l, isComment l, isQuotedAssignment l, isDigitAssignment l].count true

/-- The name of a key without the given suffix, when the key ends in it. -/
def stripSuffix (suffix : String) (key : String) : Option String :=
  if suffix.data.isSuffixOf key.data then
    some (String.mk (key.data.take (key.data.length - suffix.data.length)))
  else none

/-- The checks `X` for which the mapping has a key `X` followed by the suffix. -/
def checksWith (suffix : String) (m : Mapping) : List String :=
  m.filterMap (fun kv => stripSuffix suffix kv.1)

/-- The six checks that carry a weight in the file. -/
def scoredChecks : List String := ["FORMAT", "BUILD", "VET", "LINT", "TYPE", "TEST"]

/-- The file without its line 39, the `THRESHOLD` assignment. -/
def referenceTextWithoutThreshold : String :=
  "\n".intercalate (referenceLines.eraseIdx 38)

/-- The file without its full-line comments. -/
def referenceTextWithoutComments : String :=
  "\n".intercalate (referenceLines.filter (fun l => !isComment l.data))

/-! ## General facts about the parse -/

/-- A line splits at an `=` exactly when it holds one. -/
theorem splitFirstEq_eq_none_iff (l : List Char) : splitFirstEq l = none ↔ '=' ∉ l := by
  induction l with
  | nil => simp [splitFirstEq]
  | cons c cs ih =>
    by_cases hc : c = '='
    · simp [splitFirstEq, hc]
    · have hc' : ¬ '=' = c := fun h => hc h.symm
      cases hs : splitFirstEq cs with
      | none => simp [splitFirstEq, hc, hc', hs, ih.mp hs]
      | some p =>
        have hmem : ¬ '=' ∉ cs := fun h => by rw [ih.mpr h] at hs; cases hs
        simp only [splitFirstEq, hc, if_false, hs, List.mem_cons, hc', false_or]
        simp [hmem]

/-- A parse fails only with a ParseError, and the line it names is the first line that is
neither blank nor a comment and holds no `=`. -/
theorem parseLines_error (put : Mapping → String → String → Mapping) (ls : List (List Char)) :
    ∀ (n : Nat) (m : Mapping) (e : LoadError), parseLines put n ls m = Except.error e →
      ∃ i l, ls[i]? = some l ∧ e = LoadError.ParseError (n + i) ∧
        isBlank l = false ∧ isComment l = false ∧ '=' ∉ l := by
  induction ls with
  | nil => intro n m e h; simp [parseLines] at h
  | cons l ls ih =>
    intro n m e h
    by_cases hskip : (isBlank l || isComment l) = true
    · simp only [parseLines, hskip, if_true] at h
      obtain ⟨i, l', hi, he, hrest⟩ := ih (n + 1) m e h
      exact ⟨i + 1, l', by simpa using hi, by rw [he]; congr 1; omega, hrest⟩
    · cases hs : splitFirstEq l with
      | some p =>
        obtain ⟨k, v⟩ := p
        simp only [parseLines, hskip, hs] at h
        obtain ⟨i, l', hi, he, hrest⟩ := ih (n + 1) _ e h
        exact ⟨i + 1, l', by simpa using hi, by rw [he]; congr 1; omega, hrest⟩
      | none =>
        simp only [parseLines, hskip, hs] at h
        simp only [Bool.or_eq_true, not_or, Bool.not_eq_true] at hskip
        refine ⟨0, l, by simp, ?_, hskip.1, hskip.2, (splitFirstEq_eq_none_iff l).mp hs⟩
        simpa using (Except.error.inj h).symm

/-- A key the mapping does not hold is appended by "last assignment wins". -/
theorem setValue_of_not_mem (m : Mapping) (k v : String) (h : k ∉ m.map Prod.fst) :
    setValue m k v = m ++ [(k, v)] := by
  induction m with
  | nil => rfl
  | cons kv rest ih =>
    obtain ⟨k', v'⟩ := kv
    simp only [List.map_cons, List.mem_cons, not_or] at h
    have hk : ¬ k' = k := fun e => h.1 e.symm
    simp [setValue, hk, ih h.2]

/-- A key the mapping does not hold is appended by "first assignment wins". -/
theorem setIfAbsent_of_not_mem (m : Mapping) (k v : String) (h : k ∉ m.map Prod.fst) :
    setIfAbsent m k v = m ++ [(k, v)] := by
  induction m with
  | nil => rfl
  | cons kv rest ih =>
    obtain ⟨k', v'⟩ := kv
    simp only [List.map_cons, List.mem_cons, not_or] at h
    have hk : ¬ k' = k := fun e => h.1 e.symm
    simp [setIfAbsent, hk, ih h.2]

/-- When no key is assigned twice, "last assignment wins" and "first assignment wins" parse
alike. -/
theorem parseLines_setValue_eq_setIfAbsent (ls : List (List Char)) :
    ∀ (n : Nat) (m : Mapping),
      (m.map Prod.fst ++ (ls.filterMap assignmentOf).map Prod.fst).Nodup →
      parseLines setValue n ls m = parseLines setIfAbsent n ls m := by
  induction ls with
  | nil => intro n m _; rfl
  | cons l ls ih =>
    intro n m h
    by_cases hskip : (isBlank l || isComment l) = true
    · have ha : assignmentOf l = none := by simp [assignmentOf, hskip]
      simp only [List.filterMap_cons, ha] at h
      simp only [parseLines, hskip, if_true]
      exact ih (n + 1) m h
    · cases hs : splitFirstEq l with
      | none => simp [parseLines, hskip, hs]
      | some p =>
        obtain ⟨k, v⟩ := p
        have ha : assignmentOf l = some (String.mk k, String.mk (trimQuotes v)) := by
          simp [assignmentOf, hskip, hs]
        simp only [List.filterMap_cons, ha, List.map_cons] at h
        have hk : String.mk k ∉ m.map Prod.fst := by
          intro hmem
          have := (List.nodup_append.mp h).2.2
          exact this hmem (List.mem_cons_self _ _)
        simp only [parseLines, hskip, hs]
        rw [setValue_of_not_mem m _ _ hk, setIfAbsent_of_not_mem m _ _ hk]
        apply ih
        simpa [List.map_append, List.append_assoc] using h

/-! ## Facts shared by the statements below -/

set_option maxRecDepth 1000000 in
/-- Cutting the text at its newlines gives back the 42 lines. -/
theorem fileLines_eq : fileLines = referenceLines.map String.data := by decide

set_option maxRecDepth 1000000 in
/-- The text is as long as the source file, 1064 characters. -/
theorem referenceText_length : referenceText.length = 1064 := by decide

set_option maxRecDepth 1000000 in
/-- The file makes fifteen assignments. -/
theorem fileAssignments_length : fileAssignments.length = 15 := by decide

set_option maxRecDepth 1000000 in
/-- The parse of the file's text is the list of its assignments, in line order. -/
theorem parseText_referenceText : parseText referenceText = Except.ok fileAssignments := by
  decide

/-- A value found under a key belongs to the mapping with that key. -/
theorem getValue_mem {m : Mapping} {k v : String} (h : getValue m k = some v) :
    (k, v) ∈ m := by
  induction m with
  | nil => simp [getValue] at h
  | cons kv rest ih =>
    obtain ⟨k', v'⟩ := kv
    by_cases hk : k' = k
    · simp only [getValue, hk, if_true, Option.some.injEq] at h
      subst hk; subst h
      exact List.mem_cons_self _ _
    · simp only [getValue, hk, if_false] at h
      exact List.mem_cons_of_mem _ (ih h)

/-- The key of the check `X` with a suffix ends in that suffix. -/
theorem isSuffixOf_append (check suffix : String) :
    suffix.data.isSuffixOf (check ++ suffix).data = true := by
  rw [String.data_append, List.isSuffixOf_iff_suffix]
  exact List.suffix_append _ _

set_option maxRecDepth 1000000 in
/-- Every assignment of the file to a key ending in `_WEIGHT` has a value that coerces. -/
theorem weight_entries_coerce :
    ∀ kv ∈ fileAssignments, "_WEIGHT".data.isSuffixOf kv.1.data = true →
      (coerceNat kv.2).isSome = true := by
  decide

/-! ## The claims -/

set_option maxRecDepth 1000000 in
/-- C1: parsing the reference file verbatim (full-line comments dropped, each assignment
split on its first `=`, surrounding quotes trimmed from the value) yields a mapping in
which LANGUAGE is "go", BUILD_WEIGHT is 40, THRESHOLD is 80 and TYPE_CMD is the empty
string, both as raw values and through the typed accessors. -/
theorem reference_scenario :
    ∃ m, parseText referenceText = Except.ok m ∧
      getValue m "LANGUAGE" = some "go" ∧ language m = some "go" ∧
      getValue m "BUILD_WEIGHT" = some "40" ∧ weight m "BUILD" = Except.ok 40 ∧
      getValue m "THRESHOLD" = some "80" ∧ threshold m = Except.ok 80 ∧
      getValue m "TYPE_CMD" = some "" ∧ cmd m "TYPE" = "" :=
  ⟨fileAssignments, by decide, by decide, by decide, by decide, by decide, by decide,
    by decide, by decide, by decide⟩

set_option maxRecDepth 1000000 in
/-- C2: the six weights assigned in the reference file are 10, 40, 10, 20, 0 and 20; they
are all the keys of the file ending in `_WEIGHT`, and they sum to 100, not to the 110 that
the comment on line 30 of the file documents. -/
theorem weights_sum_to_100 :
    referenceLines[29]? = some "# Scoring weights (total: 110)" ∧
    checksWith "_WEIGHT" fileAssignments = scoredChecks ∧
    scoredChecks.map (weight fileAssignments) =
      [Except.ok 10, Except.ok 40, Except.ok 10, Except.ok 20, Except.ok 0, Except.ok 20] ∧
    (scoredChecks.map (fun X => ((getValue fileAssignments (X ++ "_WEIGHT")).bind
      coerceNat).getD 0)).sum = 100 ∧
    (scoredChecks.map (fun X => ((getValue fileAssignments (X ++ "_WEIGHT")).bind
      coerceNat).getD 0)).sum ≠ 110 :=
  ⟨by decide, by decide, by decide, by decide, by decide⟩

set_option maxRecDepth 1000000 in
/-- C3, as the claim states it, fails: line 31 of the reference file, `FORMAT_WEIGHT=10`,
is not blank, is not a comment and is not of the form `KEY="value"`, since its value has
no quotes; so not every line has one of the three shapes. -/
theorem line_31_has_none_of_three_shapes :
    fileLines[30]? = some "FORMAT_WEIGHT=10".data ∧
    isBlank "FORMAT_WEIGHT=10".data = false ∧
    isComment "FORMAT_WEIGHT=10".data = false ∧
    isQuotedAssignment "FORMAT_WEIGHT=10".data = false ∧
    ¬ (∀ l ∈ fileLines, isThreeShapes l = true) :=
  ⟨by decide, by decide, by decide, by decide, by decide⟩

set_option maxRecDepth 1000000 in
/-- C3, amended: every line of the reference file has exactly one of four shapes: blank, a
comment whose first character is `#`, an assignment `KEY="value"` with an uppercase
snake-case key and a double-quoted (possibly empty) value, or an assignment `KEY=digits`
with an uppercase snake-case key and an unquoted non-empty run of decimal digits; the lines
of the fourth shape are the six weights (lines 31 to 36) and the threshold (line 39). -/
theorem every_line_has_one_of_four_shapes :
    (∀ l ∈ fileLines, shapeCount l = 1) ∧
    fileLines.length = 42 ∧
    (List.range 42).filter (fun i => isDigitAssignment (fileLines.getD i [])) =
      [30, 31, 32, 33, 34, 35, 38] ∧
    ((List.range 42).filter (fun i => isQuotedAssignment (fileLines.getD i []))).length = 8 :=
  ⟨by decide, by decide, by decide, by decide⟩

set_option maxRecDepth 1000000 in
/-- C4: loading the reference file raises no ParseError: every line of it that is neither
blank nor a comment contains an `=`, so the load of a path holding the file's text
succeeds with the file's assignments and is a ParseError at no line number. -/
theorem load_reference_no_parse_error (readFile : String → Option String) (path : String)
    (h : readFile path = some referenceText) :
    (∀ l ∈ fileLines, isBlank l = false → isComment l = false → '=' ∈ l) ∧
    load readFile path = Except.ok fileAssignments ∧
    ∀ n, load readFile path ≠ Except.error (LoadError.ParseError n) := by
  have hload : load readFile path = Except.ok fileAssignments := by
    simp only [load, h]
    exact parseText_referenceText
  refine ⟨by decide, hload, ?_⟩
  intro n hn
  rw [hload] at hn
  cases hn

/-- C4 at a file system whose only file is the reference file. -/
theorem load_reference_no_parse_error_witness :
    (fun p => if p = "hooks.config.go" then some referenceText else none) "hooks.config.go"
        = some referenceText ∧
    load (fun p => if p = "hooks.config.go" then some referenceText else none)
        "hooks.config.go" = Except.ok fileAssignments :=
  ⟨by simp,
    (load_reference_no_parse_error
      (fun p => if p = "hooks.config.go" then some referenceText else none)
      "hooks.config.go" (by simp)).2.1⟩

set_option maxRecDepth 1000000 in
/-- C5: every key of the reference file whose name ends in `_WEIGHT` has a value that is a
non-empty string of decimal digits and so coerces to a non-negative integer; the typed
accessor therefore returns a number, and no TypeError, for the weight of any check. -/
theorem weight_values_are_digits :
    (∀ kv ∈ fileAssignments, "_WEIGHT".data.isSuffixOf kv.1.data = true →
      kv.2.data ≠ [] ∧ kv.2.data.all Char.isDigit = true ∧
        (coerceNat kv.2).isSome = true) ∧
    (∀ check : String, ∃ n, weight fileAssignments check = Except.ok n) ∧
    (∀ check key : String,
      weight fileAssignments check ≠ Except.error (AccessError.TypeError key)) := by
  have hok : ∀ check : String, ∃ n, weight fileAssignments check = Except.ok n := by
    intro check
    unfold weight intField
    cases hv : getValue fileAssignments (check ++ "_WEIGHT") with
    | none => exact ⟨defaultWeight, rfl⟩
    | some v =>
      have hc := weight_entries_coerce _ (getValue_mem hv) (isSuffixOf_append check "_WEIGHT")
      cases hn : coerceNat v with
      | none => rw [hn] at hc; cases hc
      | some n => exact ⟨n, by simp only [hn]⟩
  refine ⟨by decide, hok, ?_⟩
  intro check key herr
  obtain ⟨n, hn⟩ := hok check
  rw [hn] at herr
  cases herr

set_option maxRecDepth 1000000 in
/-- C6: the THRESHOLD assigned on line 39 of the reference file is 80, an integer between 0
and 100 that equals the documented default; the file without that line has no THRESHOLD
key, keeps every other assignment, and loads the same threshold, 80. -/
theorem threshold_equals_default :
    referenceLines[38]? = some "THRESHOLD=80" ∧
    defaultThreshold = 80 ∧
    ∃ m m', parseText referenceText = Except.ok m ∧
      parseText referenceTextWithoutThreshold = Except.ok m' ∧
      getValue m "THRESHOLD" = some "80" ∧ coerceNat "80" = some 80 ∧
      threshold m = Except.ok 80 ∧ 0 ≤ 80 ∧ 80 ≤ 100 ∧
      getValue m' "THRESHOLD" = none ∧
      m' = m.filter (fun kv => kv.1 != "THRESHOLD") ∧
      threshold m' = threshold m :=
  ⟨by decide, rfl, fileAssignments, fileAssignments.filter (fun kv => kv.1 != "THRESHOLD"),
    by decide, by decide, by decide, by decide, by decide, by decide, by decide, by decide,
    rfl, by decide⟩

set_option maxRecDepth 1000000 in
/-- C7: keys are unique within the reference file: the keys of its fifteen assignment lines
(comment lines excluded) are pairwise different, so parsing under "last assignment wins"
and under "first assignment wins" yields the same mapping. -/
theorem keys_unique_in_reference :
    (fileAssignments.map Prod.fst).Nodup ∧
    fileAssignments.length = 15 ∧
    parseText referenceText = Except.ok fileAssignments ∧
    parseTextFirstWins referenceText = parseText referenceText :=
  ⟨by decide, by decide, by decide,
    (parseLines_setValue_eq_setIfAbsent (splitLines referenceText.data) 1 []
      (by decide)).symm⟩

set_option maxRecDepth 1000000 in
/-- C8: full-line comments contribute nothing to the mapping loaded from the reference
file: the file and the file without its comment lines load the same mapping, in which
LINT_CMD is "golangci-lint run" (not "make lint"), TEST_CMD is "go test -race ./..." (not
"make test") and CUSTOM_PROTECTED_FILES is absent, so that it takes its default, the empty
list, whatever the reading of a present value; the comment lines holding an `=` are lines
20, 27 and 42. -/
theorem comments_contribute_nothing :
    ∃ m, parseText referenceText = Except.ok m ∧
      parseText referenceTextWithoutComments = Except.ok m ∧
      getValue m "LINT_CMD" = some "golangci-lint run" ∧
      getValue m "LINT_CMD" ≠ some "make lint" ∧
      getValue m "TEST_CMD" = some "go test -race ./..." ∧
      getValue m "TEST_CMD" ≠ some "make test" ∧
      getValue m "CUSTOM_PROTECTED_FILES" = none ∧
      (List.range 42).filter
        (fun i => isComment (fileLines.getD i []) && decide ('=' ∈ fileLines.getD i [])) =
        [19, 26, 41] ∧
      ∀ parseArray : String → List String, customProtectedFiles parseArray m = [] :=
  ⟨fileAssignments, by decide, by decide, by decide, by decide, by decide, by decide,
    by decide, by decide, fun parseArray => by
      have h : getValue fileAssignments "CUSTOM_PROTECTED_FILES" = none := by decide
      simp only [customProtectedFiles, h]⟩

set_option maxRecDepth 1000000 in
/-- C9: in the reference file a check is skipped exactly when it carries no weight: for
each X of FORMAT, BUILD, VET, LINT, TYPE and TEST, X_CMD is assigned the empty string if
and only if X_WEIGHT is assigned 0, and only TYPE satisfies both sides. -/
theorem skipped_iff_weightless (X : String) (hX : X ∈ scoredChecks) :
    (getValue fileAssignments (X ++ "_CMD") = some "" ↔
      getValue fileAssignments (X ++ "_WEIGHT") = some "0") ∧
    (cmd fileAssignments X = "" ↔ weight fileAssignments X = Except.ok 0) ∧
    (cmd fileAssignments X = "" ↔ X = "TYPE") ∧
    (weight fileAssignments X = Except.ok 0 ↔ X = "TYPE") := by
  revert X
  decide

/-- C9 at the one skipped check, TYPE. -/
theorem skipped_iff_weightless_witness :
    "TYPE" ∈ scoredChecks ∧
    (cmd fileAssignments "TYPE" = "" ↔ weight fileAssignments "TYPE" = Except.ok 0) :=
  ⟨by decide, (skipped_iff_weightless "TYPE" (by decide)).2.1⟩

set_option maxRecDepth 1000000 in
/-- C10: in the reference file every X_WEIGHT key has an X_CMD key of the same prefix X,
while the converse fails for exactly one command: IMPORTS_CMD is the only key ending in
`_CMD` without a matching `_WEIGHT` key, so the weight of IMPORTS is the default 0. -/
theorem imports_is_the_only_unweighted_command :
    (∀ X ∈ checksWith "_WEIGHT" fileAssignments, X ∈ checksWith "_CMD" fileAssignments) ∧
    checksWith "_WEIGHT" fileAssignments = ["FORMAT", "BUILD", "VET", "LINT", "TYPE", "TEST"] ∧
    checksWith "_CMD" fileAssignments =
      ["FORMAT", "IMPORTS", "BUILD", "VET", "LINT", "TYPE", "TEST"] ∧
    (checksWith "_CMD" fileAssignments).filter
      (fun X => decide (X ∉ checksWith "_WEIGHT" fileAssignments)) = ["IMPORTS"] ∧
    getValue fileAssignments "IMPORTS_CMD" = some "goimports -w ." ∧
    getValue fileAssignments "IMPORTS_WEIGHT" = none ∧
    defaultWeight = 0 ∧
    weight fileAssignments "IMPORTS" = Except.ok 0 :=
  ⟨by decide, by decide, by decide, by decide, by decide, by decide, rfl, by decide⟩

end HooksConfig
